import Mathlib

/-!
# go_mqtt_api: ingestion, dual persistence and the query surface

A shallow embedding of the Go sources

* `internal/domain` (records and the two store interfaces),
* `internal/usecase/sensor_data_service.go`,
* `internal/infrastructure/mqtt/client.go` (`Client.messageHandler`),
* `internal/interfaces/http/handler.go`,
* `internal/infrastructure/redis/repository.go` (key scheme and overwrite).

Conventions.  Go `int` is the 64-bit signed integer and is carried as `Int`
(the only arithmetic on it is comparison with constants, so no wrap-around can
occur; the one place where the 64-bit range matters is `strconv.Atoi`).  A Go
`error` is `Option String` (`none` is `nil`), a `(T, error)` result is
`Except String T`.  Stores are stateful, so every operation threads an explicit
state.  Library functions (`json.Unmarshal`, `time.Parse`, `time.Now`) are
inputs of the model.
-/

namespace GoMqttApi

/-! ## Domain model (`internal/domain`) -/

/-- A Go `float64`, carried as its IEEE-754 bit pattern.  The program never
computes with the measurement, it only copies it. -/
structure Float64 where
  bits : Nat
  deriving DecidableEq, Repr

/-- A Go `time.Time`, carried as nanoseconds since the Unix epoch. -/
structure Time where
  unixNano : Int
  deriving DecidableEq, Repr

/-- The entity `domain.SensorData` (history record). -/
structure SensorData where
  ID : Nat
  DeviceID : String
  Value : Float64
  Timestamp : Time
  CreatedAt : Time
  deriving DecidableEq, Repr

/-- The record `domain.LatestValue` (cache cell). -/
structure LatestValue where
  DeviceID : String
  Value : Float64
  Timestamp : Time
  deriving DecidableEq, Repr

/-- The interface `domain.SensorDataRepository` over a store state `σ`. -/
structure SensorDataRepository (σ : Type) where
  Create : SensorData → σ → Option String × σ
  GetHistory : String → Int → Int → σ → Except String (List SensorData) × σ
  Count : String → σ → Except String Int × σ

/-- The interface `domain.LatestValueRepository` over a store state `σ`.
`GetLatest` returns `(nil, nil)` (here `.ok none`) for an absent key. -/
structure LatestValueRepository (σ : Type) where
  SetLatest : String → LatestValue → σ → Option String × σ
  GetLatest : String → σ → Except String (Option LatestValue) × σ

/-! ## Sensor data service (`internal/usecase/sensor_data_service.go`) -/

/-- The struct `usecase.SensorDataService`. -/
structure SensorDataService (σ : Type) where
  sensorRepo : SensorDataRepository σ
  latestRepo : LatestValueRepository σ

/-- The method `SensorDataService.ProcessSensorData`; `now` is the value of
`time.Now()` at line 36. -/
def SensorDataService.ProcessSensorData {σ : Type} (s : SensorDataService σ) (now : Time)
    (deviceID : String) (value : Float64) (timestamp : Time) (st : σ) : Option String × σ :=
  let sensorData : SensorData :=
    { ID := 0, DeviceID := deviceID, Value := value, Timestamp := timestamp, CreatedAt := now }
  match s.sensorRepo.Create sensorData st with
  | (some err, st1) => (some ("failed to save sensor data to PostgreSQL: " ++ err), st1)
  | (none, st1) =>
    let latestValue : LatestValue :=
      { DeviceID := deviceID, Value := value, Timestamp := timestamp }
    match s.latestRepo.SetLatest deviceID latestValue st1 with
    | (some _, st2) => (none, st2)
    | (none, st2) => (none, st2)

/-- The method `SensorDataService.GetLatestValue`. -/
def SensorDataService.GetLatestValue {σ : Type} (s : SensorDataService σ)
    (deviceID : String) (st : σ) : Except String LatestValue × σ :=
  match s.latestRepo.GetLatest deviceID st with
  | (.error err, st1) => (.error ("failed to get latest value: " ++ err), st1)
  | (.ok none, st1) => (.error ("latest value not found for device: " ++ deviceID), st1)
  | (.ok (some latest), st1) => (.ok latest, st1)

/-- The method `SensorDataService.GetHistory`. -/
def SensorDataService.GetHistory {σ : Type} (s : SensorDataService σ)
    (deviceID : String) (limit offset : Int) (st : σ) : Except String (List SensorData) × σ :=
  let limit := if limit ≤ 0 then 100 else limit
  let limit := if limit > 1000 then 1000 else limit
  match s.sensorRepo.GetHistory deviceID limit offset st with
  | (.error err, st1) => (.error ("failed to get history: " ++ err), st1)
  | (.ok records, st1) => (.ok records, st1)

/-- The method `SensorDataService.GetHistoryCount`. -/
def SensorDataService.GetHistoryCount {σ : Type} (s : SensorDataService σ)
    (deviceID : String) (st : σ) : Except String Int × σ :=
  match s.sensorRepo.Count deviceID st with
  | (.error err, st1) => (.error ("failed to get history count: " ++ err), st1)
  | (.ok count, st1) => (.ok count, st1)

/-! ## Observing store calls -/

/-- One call made through a store interface, with its arguments. -/
inductive StoreCall where
  | Create (data : SensorData)
  | GetHistory (deviceID : String) (limit offset : Int)
  | Count (deviceID : String)
  | SetLatest (deviceID : String) (value : LatestValue)
  | GetLatest (deviceID : String)
  deriving DecidableEq, Repr

/-- Wraps a history store so that every call is appended to a log. -/
def traceSensorRepo {σ : Type} (r : SensorDataRepository σ) :
    SensorDataRepository (σ × List StoreCall) where
  Create data s := ((r.Create data s.1).1, ((r.Create data s.1).2, s.2 ++ [.Create data]))
  GetHistory d l o s :=
    ((r.GetHistory d l o s.1).1, ((r.GetHistory d l o s.1).2, s.2 ++ [.GetHistory d l o]))
  Count d s := ((r.Count d s.1).1, ((r.Count d s.1).2, s.2 ++ [.Count d]))

/-- Wraps a latest-value store so that every call is appended to a log. -/
def traceLatestRepo {σ : Type} (r : LatestValueRepository σ) :
    LatestValueRepository (σ × List StoreCall) where
  SetLatest d v s := ((r.SetLatest d v s.1).1, ((r.SetLatest d v s.1).2, s.2 ++ [.SetLatest d v]))
  GetLatest d s := ((r.GetLatest d s.1).1, ((r.GetLatest d s.1).2, s.2 ++ [.GetLatest d]))

/-- A service whose two stores log their calls. -/
def traceService {σ : Type} (s : SensorDataService σ) : SensorDataService (σ × List StoreCall) where
  sensorRepo := traceSensorRepo s.sensorRepo
  latestRepo := traceLatestRepo s.latestRepo

/-! ## In-memory stores

The two production stores (PostgreSQL through gorm, Redis) are external
services.  They are modelled as explicit state: the table `sensor_data` is the
list of its rows in insertion order, the Redis keyspace is a list of
key/value cells with at most one cell per key.  Every repository takes a
`fault`: `some msg` makes its operations fail with `msg` and leave the state
untouched, `none` makes them succeed. -/

/-- The state of both stores. -/
structure Stores where
  history : List SensorData
  latest : List (String × LatestValue)
  deriving DecidableEq, Repr

/-- Both stores empty. -/
def Stores.empty : Stores := { history := [], latest := [] }

/-- The method `LatestValueRepository.getKey` (`redis/repository.go`):
`fmt.Sprintf("device:%s:latest", deviceID)`. -/
def getKey (deviceID : String) : String := "device:" ++ deviceID ++ ":latest"

/-- Redis `SET key value` without expiry: the cell under `key` is replaced.
The cell holds the `LatestValue` whose JSON encoding the repository writes. -/
def redisSet (key : String) (value : LatestValue) (cells : List (String × LatestValue)) :
    List (String × LatestValue) :=
  (key, value) :: cells.filter (fun e => e.1 ≠ key)

/-- Redis `GET key`: `none` is `redis.Nil`. -/
def redisGet (key : String) (cells : List (String × LatestValue)) : Option LatestValue :=
  (cells.find? (fun e => e.1 = key)).map (fun e => e.2)

/-- The history store (`postgres/repository.go`) over `Stores`.  `Create`
inserts one row and lets the table assign the primary key; `GetHistory` is
`WHERE device_id = ? ORDER BY timestamp DESC LIMIT ? OFFSET ?`. -/
def memSensorRepo (fault : Option String) : SensorDataRepository Stores where
  Create data st :=
    match fault with
    | some msg => (some msg, st)
    | none => (none, { st with history := st.history ++ [{ data with ID := st.history.length + 1 }] })
  GetHistory deviceID limit offset st :=
    match fault with
    | some msg => (.error msg, st)
    | none =>
      (.ok ((((st.history.filter (fun r => r.DeviceID = deviceID)).insertionSort
        (fun a b => b.Timestamp.unixNano ≤ a.Timestamp.unixNano)).drop offset.toNat).take
          limit.toNat), st)
  Count deviceID st :=
    match fault with
    | some msg => (.error msg, st)
    | none => (.ok ((st.history.filter (fun r => r.DeviceID = deviceID)).length : Int), st)

/-- The latest-value store (`redis/repository.go`) over `Stores`: the cell of a
device lives under `getKey deviceID`. -/
def memLatestRepo (fault : Option String) : LatestValueRepository Stores where
  SetLatest deviceID value st :=
    match fault with
    | some msg => (some msg, st)
    | none => (none, { st with latest := redisSet (getKey deviceID) value st.latest })
  GetLatest deviceID st :=
    match fault with
    | some msg => (.error ("failed to get latest value: " ++ msg), st)
    | none => (.ok (redisGet (getKey deviceID) st.latest), st)

/-- The service wired to the in-memory stores, as `main` wires it to the
production ones. -/
def memService (historyFault latestFault : Option String) : SensorDataService Stores where
  sensorRepo := memSensorRepo historyFault
  latestRepo := memLatestRepo latestFault

/-- One call of `ProcessSensorData` together with the outcome of its two
store writes. -/
structure Ingestion where
  deviceID : String
  value : Float64
  observedAt : Time
  now : Time
  createFault : Option String
  setFault : Option String
  deriving DecidableEq, Repr

/-- The stores after one `ProcessSensorData` call. -/
def ingest (st : Stores) (c : Ingestion) : Stores :=
  ((memService c.createFault c.setFault).ProcessSensorData c.now c.deviceID c.value
    c.observedAt st).2

/-- The stores after a sequence of `ProcessSensorData` calls, from empty stores. -/
def ingestAll (cs : List Ingestion) : Stores := cs.foldl ingest Stores.empty

/-- The most recent reading passed to `ProcessSensorData` for a device. -/
def lastReading (deviceID : String) (cs : List Ingestion) : Option Ingestion :=
  (cs.filter (fun c => c.deviceID = deviceID)).getLast?

/-- The most recent reading of a device whose two store writes both succeeded. -/
def lastStored (deviceID : String) (cs : List Ingestion) : Option Ingestion :=
  (cs.filter (fun c => c.deviceID = deviceID ∧ c.createFault = none ∧ c.setFault = none)).getLast?

/-- Two readings of one device; the history write of the second one fails. -/
def staleRun : List Ingestion :=
  [ { deviceID := "sensor-1", value := ⟨1⟩, observedAt := ⟨10⟩, now := ⟨11⟩,
      createFault := none, setFault := none },
    { deviceID := "sensor-1", value := ⟨2⟩, observedAt := ⟨20⟩, now := ⟨21⟩,
      createFault := some "connection refused", setFault := none } ]

/-! ## Query surface (`internal/interfaces/http/handler.go`) -/

/-- The two kinds of `*strconv.NumError` that `strconv.Atoi` reports. -/
inductive NumError where
  | ErrSyntax
  | ErrRange
  deriving DecidableEq, Repr

/-- The largest `uint64`. -/
def maxUint64 : Nat := 2 ^ 64 - 1

/-- The digit loop of `strconv.ParseUint(s, 10, 64)`: bytes are consumed left
to right; a byte that is not a decimal digit ends the loop with a syntax error
and value 0, an overflow ends it with a range error and the largest value. -/
def parseUintLoop : List Char → Nat → Nat × Option NumError
  | [], n => (n, none)
  | c :: cs, n =>
    if '0' ≤ c ∧ c ≤ '9' then
      if n ≥ maxUint64 / 10 + 1 then (maxUint64, some .ErrRange)
      else
        let n1 := (n * 10 + (c.toNat - '0'.toNat)) % 2 ^ 64
        if n1 < n * 10 ∨ n1 > maxUint64 then (maxUint64, some .ErrRange)
        else parseUintLoop cs n1
    else (0, some .ErrSyntax)

/-- The function `strconv.ParseUint(s, 10, 64)`. -/
def ParseUint (s : List Char) : Nat × Option NumError :=
  if s = [] then (0, some .ErrSyntax) else parseUintLoop s 0

/-- The function `strconv.ParseInt(s, 10, 0)` on a 64-bit platform: an optional sign, then
`ParseUint`; a syntax error yields 0, a magnitude outside the `int64` range
yields the nearest bound together with a range error. -/
def ParseInt (s : String) : Int × Option NumError :=
  match s.data with
  | [] => (0, some .ErrSyntax)
  | c :: cs =>
    match ParseUint (if c = '+' ∨ c = '-' then cs else c :: cs) with
    | (_, some .ErrSyntax) => (0, some .ErrSyntax)
    | (un, _) =>
      if ¬ c = '-' ∧ un ≥ 2 ^ 63 then (2 ^ 63 - 1, some .ErrRange)
      else if c = '-' ∧ un > 2 ^ 63 then (-(2 ^ 63), some .ErrRange)
      else (if c = '-' then -(un : Int) else (un : Int), none)

/-- The function `strconv.Atoi`: the value and the error of `ParseInt(s, 10, 0)` (the fast
path for short inputs computes the same result). -/
def Atoi (s : String) : Int × Option NumError := ParseInt s

/-- The JSON bodies the handlers send. -/
inductive Body where
  | Error (error : String)
  | Latest (latest : LatestValue)
  | History (data : List SensorData) (total limit offset : Int)
  deriving DecidableEq, Repr

/-- An HTTP response: status code and body. -/
structure Response where
  status : Nat
  body : Body
  deriving DecidableEq, Repr

/-- The struct `http.Handler`. -/
structure Handler (σ : Type) where
  service : SensorDataService σ

/-- What `Handler.GetHistory` reads from the request: `c.Param("id")`,
`c.QueryParam("limit")` and `c.QueryParam("offset")` (empty when absent). -/
structure HistoryRequest where
  id : String
  limit : String
  offset : String
  deriving DecidableEq, Repr

/-- The method `Handler.GetLatestValue`; `deviceID` is `c.Param("id")`. -/
def Handler.GetLatestValue {σ : Type} (h : Handler σ) (deviceID : String) (st : σ) :
    Response × σ :=
  if deviceID = "" then (⟨400, .Error "device ID is required"⟩, st)
  else
    match h.service.GetLatestValue deviceID st with
    | (.error err, st1) => (⟨404, .Error err⟩, st1)
    | (.ok latest, st1) => (⟨200, .Latest latest⟩, st1)

/-- The method `Handler.GetHistory`. -/
def Handler.GetHistory {σ : Type} (h : Handler σ) (req : HistoryRequest) (st : σ) :
    Response × σ :=
  if req.id = "" then (⟨400, .Error "device ID is required"⟩, st)
  else
    let limit := (Atoi req.limit).1
    let offset := (Atoi req.offset).1
    let limit := if limit ≤ 0 then 100 else limit
    let offset := if offset < 0 then 0 else offset
    match h.service.GetHistory req.id limit offset st with
    | (.error err, st1) => (⟨500, .Error err⟩, st1)
    | (.ok records, st1) =>
      match h.service.GetHistoryCount req.id st1 with
      | (.error _, st2) => (⟨200, .History records (records.length : Int) limit offset⟩, st2)
      | (.ok total, st2) => (⟨200, .History records total limit offset⟩, st2)

/-- The handler over the in-memory stores with call logging. -/
def memHandler (historyFault latestFault : Option String) : Handler (Stores × List StoreCall) where
  service := traceService (memService historyFault latestFault)

/-- The request `limit=99999999999999999999x&offset=-5` for device `sensor-1`. -/
def rangeRequest : HistoryRequest :=
  { id := "sensor-1", limit := "99999999999999999999x", offset := "-5" }

/-! ## Message consumer (`internal/infrastructure/mqtt/client.go`) -/

/-- The field `device` of the decoded payload. -/
structure PayloadDevice where
  ID : String
  deriving DecidableEq, Repr

/-- The field `data` of the decoded payload. -/
structure PayloadData where
  Value : Float64
  Timestamp : String
  deriving DecidableEq, Repr

/-- The anonymous struct `payload` of `messageHandler`.  A field absent from
the JSON text keeps its zero value (`""` for the two strings). -/
structure Payload where
  Device : PayloadDevice
  Data : PayloadData
  deriving DecidableEq, Repr

/-- The library functions `messageHandler` calls: `json.Unmarshal` into the
payload struct and `time.Parse(time.RFC3339, ·)`. -/
structure Lib where
  jsonUnmarshal : String → Except String Payload
  timeParse : String → Except String Time

/-- The type `mqtt.MessageHandler` over a state `σ`. -/
abbrev MessageHandler (σ : Type) := String → Float64 → Time → σ → Option String × σ

/-- The struct `mqtt.Client` (the broker connection is outside the model). -/
structure Client (σ : Type) where
  topic : String
  qos : Nat
  handler : MessageHandler σ

/-- An inbound message: topic, payload bytes, and the value `time.Now()` has
while the message is handled. -/
structure Message where
  topic : String
  payload : String
  now : Time
  deriving DecidableEq, Repr

/-- The method `Client.messageHandler`. -/
def Client.messageHandler {σ : Type} (lib : Lib) (c : Client σ) (msg : Message) (st : σ) : σ :=
  match lib.jsonUnmarshal msg.payload with
  | .error _ => st
  | .ok payload =>
    if payload.Device.ID = "" then st
    else
      let timestamp :=
        match lib.timeParse payload.Data.Timestamp with
        | .ok t => t
        | .error _ => msg.now
      match c.handler payload.Device.ID payload.Data.Value timestamp st with
      | (some _, st1) => st1
      | (none, st1) => st1

/-- The subscription: the transport calls `messageHandler` once per inbound
message, in arrival order. -/
def Client.deliver {σ : Type} (lib : Lib) (c : Client σ) (msgs : List Message) (st : σ) : σ :=
  msgs.foldl (fun s m => c.messageHandler lib m s) st

/-- One invocation of the registered handler, with its arguments. -/
abbrev Invocation := String × Float64 × Time

/-- Wraps a handler so that every invocation is appended to a log. -/
def traceHandler {σ : Type} (h : MessageHandler σ) : MessageHandler (σ × List Invocation) :=
  fun deviceID value timestamp s =>
    ((h deviceID value timestamp s.1).1,
      ((h deviceID value timestamp s.1).2, s.2 ++ [(deviceID, value, timestamp)]))

/-- A client whose handler logs its invocations. -/
def traceClient {σ : Type} (c : Client σ) : Client (σ × List Invocation) where
  topic := c.topic
  qos := c.qos
  handler := traceHandler c.handler

/-- The messages that pass the two checks of `messageHandler`: the payload parses as
the expected structure and its device identifier is not empty. -/
def accepted (lib : Lib) (msg : Message) : Bool :=
  match lib.jsonUnmarshal msg.payload with
  | .error _ => false
  | .ok payload => decide (payload.Device.ID ≠ "")

/-- The Ingestion Decoder as the specification words it (§4.1): malformed
payloads and payloads without a device identifier are rejected; the timestamp
is the parsed one, or the current time when it is absent or does not parse. -/
def specDecode (lib : Lib) (msg : Message) : Option Invocation :=
  match lib.jsonUnmarshal msg.payload with
  | .error _ => none
  | .ok payload =>
    if payload.Device.ID = "" then none
    else
      match lib.timeParse payload.Data.Timestamp with
      | .ok t => some (payload.Device.ID, payload.Data.Value, t)
      | .error _ => some (payload.Device.ID, payload.Data.Value, msg.now)

/-- A toy decoder for examples: the payload text is taken as the device
identifier, the text `"malformed"` does not parse; the value is 21.5 and the
timestamp field is 2024-01-01T00:00:00Z. -/
def demoLib : Lib where
  jsonUnmarshal raw :=
    if raw = "malformed" then .error "invalid character"
    else .ok ⟨⟨raw⟩, ⟨⟨0x4035800000000000⟩, "2024-01-01T00:00:00Z"⟩⟩
  timeParse text :=
    if text = "2024-01-01T00:00:00Z" then .ok ⟨1704067200000000000⟩
    else .error "cannot parse"

/-! ## Theorems -/

/-- The two return paths of `ProcessSensorData`, after a failed `Create`. -/
theorem processSensorData_of_create_error {σ : Type} (s : SensorDataService σ)
    (now : Time) (deviceID : String) (value : Float64) (timestamp : Time) (st st1 : σ)
    (err : String)
    (hc : s.sensorRepo.Create
      { ID := 0, DeviceID := deviceID, Value := value, Timestamp := timestamp,
        CreatedAt := now } st = (some err, st1)) :
    s.ProcessSensorData now deviceID value timestamp st =
      (some ("failed to save sensor data to PostgreSQL: " ++ err), st1) := by
  simp only [SensorDataService.ProcessSensorData, hc]

/-- The two return paths of `ProcessSensorData`, after a successful `Create`. -/
theorem processSensorData_of_create_ok {σ : Type} (s : SensorDataService σ)
    (now : Time) (deviceID : String) (value : Float64) (timestamp : Time) (st st1 : σ)
    (hc : s.sensorRepo.Create
      { ID := 0, DeviceID := deviceID, Value := value, Timestamp := timestamp,
        CreatedAt := now } st = (none, st1)) :
    s.ProcessSensorData now deviceID value timestamp st =
      (none, (s.latestRepo.SetLatest deviceID
        { DeviceID := deviceID, Value := value, Timestamp := timestamp } st1).2) := by
  simp only [SensorDataService.ProcessSensorData, hc]
  split <;> rename_i h <;> simp [h]

/-- C1: `ProcessSensorData` returns an error exactly when the history store's
`Create` returns one, for every state, every input and every pair of stores
(so whatever `SetLatest` does). -/
theorem processSensorData_fails_iff_create_fails {σ : Type} (s : SensorDataService σ)
    (now : Time) (deviceID : String) (value : Float64) (timestamp : Time) (st : σ) :
    ((s.ProcessSensorData now deviceID value timestamp st).1.isSome = true ↔
      (s.sensorRepo.Create
        { ID := 0, DeviceID := deviceID, Value := value, Timestamp := timestamp,
          CreatedAt := now } st).1.isSome = true) := by
  rcases hc : s.sensorRepo.Create
      { ID := 0, DeviceID := deviceID, Value := value, Timestamp := timestamp,
        CreatedAt := now } st with ⟨e, st1⟩
  cases e with
  | some err => simp [processSensorData_of_create_error s now deviceID value timestamp st st1 err hc]
  | none => simp [processSensorData_of_create_ok s now deviceID value timestamp st st1 hc]

/-- C3: `SensorDataService.GetHistory` makes exactly one store call, a
`GetHistory` with the same deviceID, the same offset (negative ones included)
and the limit 100 when `limit ≤ 0`, 1000 when `limit > 1000`, `limit` itself
otherwise; that limit lies in `[1, 1000]`, and the store's records are returned
unchanged (a store error is returned wrapped). -/
theorem getHistory_store_call {σ : Type} (s : SensorDataService σ)
    (deviceID : String) (limit offset : Int) (st : σ) (log : List StoreCall) :
    (((traceService s).GetHistory deviceID limit offset (st, log)).2.2 =
        log ++ [StoreCall.GetHistory deviceID
          (if limit ≤ 0 then 100 else if limit > 1000 then 1000 else limit) offset]) ∧
      (1 ≤ (if limit ≤ 0 then 100 else if limit > 1000 then 1000 else limit) ∧
        (if limit ≤ 0 then (100 : Int) else if limit > 1000 then 1000 else limit) ≤ 1000) ∧
      (((traceService s).GetHistory deviceID limit offset (st, log)).1 =
        (s.sensorRepo.GetHistory deviceID
          (if limit ≤ 0 then 100 else if limit > 1000 then 1000 else limit) offset st).1.mapError
          (fun err => "failed to get history: " ++ err)) := by
  have hl : (if (if limit ≤ 0 then (100 : Int) else limit) > 1000 then (1000 : Int)
      else (if limit ≤ 0 then 100 else limit)) =
      (if limit ≤ 0 then 100 else if limit > 1000 then 1000 else limit) := by
    split_ifs <;> omega
  refine ⟨?_, ?_, ?_⟩
  · simp only [SensorDataService.GetHistory, hl, traceService, traceSensorRepo]
    split <;> rename_i h <;> simp only [Prod.mk.injEq] at h <;> simp [← h.2]
  · split_ifs <;> omega
  · simp only [SensorDataService.GetHistory, hl, traceService, traceSensorRepo]
    split <;> rename_i h <;> simp only [Prod.mk.injEq] at h <;> simp [h.1, Except.mapError]

/-- C9: the store calls of one `ProcessSensorData` are a `Create` of a record
whose DeviceID, Value and Timestamp are the three inputs, followed (when
`Create` succeeds, and only then) by a `SetLatest` whose key is that same
deviceID string and whose value carries the same three inputs. -/
theorem processSensorData_store_calls {σ : Type} (s : SensorDataService σ)
    (now : Time) (deviceID : String) (value : Float64) (timestamp : Time) (st : σ)
    (log : List StoreCall) :
    ((traceService s).ProcessSensorData now deviceID value timestamp (st, log)).2.2 =
      log ++ (StoreCall.Create
          { ID := 0, DeviceID := deviceID, Value := value, Timestamp := timestamp,
            CreatedAt := now } ::
        (if (s.sensorRepo.Create
            { ID := 0, DeviceID := deviceID, Value := value, Timestamp := timestamp,
              CreatedAt := now } st).1.isSome
          then []
          else [StoreCall.SetLatest deviceID
            { DeviceID := deviceID, Value := value, Timestamp := timestamp }])) := by
  rcases hc : s.sensorRepo.Create
      { ID := 0, DeviceID := deviceID, Value := value, Timestamp := timestamp,
        CreatedAt := now } st with ⟨e, st1⟩
  cases e with
  | some err =>
    rw [processSensorData_of_create_error (traceService s) now deviceID value timestamp
      (st, log) (st1, log ++ [StoreCall.Create
        { ID := 0, DeviceID := deviceID, Value := value, Timestamp := timestamp,
          CreatedAt := now }]) err (by simp [traceService, traceSensorRepo, hc])]
    simp
  | none =>
    rw [processSensorData_of_create_ok (traceService s) now deviceID value timestamp
      (st, log) (st1, log ++ [StoreCall.Create
        { ID := 0, DeviceID := deviceID, Value := value, Timestamp := timestamp,
          CreatedAt := now }]) (by simp [traceService, traceSensorRepo, hc])]
    simp [traceService, traceLatestRepo]

/-! ### The in-memory stores -/

/-- Distinct devices have distinct Redis keys. -/
theorem getKey_inj (a b : String) : getKey a = getKey b ↔ a = b := by
  constructor
  · intro h
    have h1 : (getKey a).data = (getKey b).data := by rw [h]
    simp only [getKey, String.data_append] at h1
    have h2 := List.append_cancel_right h1
    have h3 := List.append_cancel_left h2
    exact String.ext h3
  · intro h
    rw [h]

/-- Reading a key after a `SET`: the written key holds the written value, every
other key is unaffected. -/
theorem redisGet_redisSet (k k' : String) (v : LatestValue) (cells : List (String × LatestValue)) :
    redisGet k (redisSet k' v cells) = if k = k' then some v else redisGet k cells := by
  unfold redisGet redisSet
  by_cases h : k = k'
  · subst h
    simp
  · have h' : ¬ k' = k := fun e => h e.symm
    have hp : (fun a : String × LatestValue => (!decide (a.1 = k') && decide (a.1 = k))) =
        (fun a => decide (a.1 = k)) := by
      funext a
      by_cases ha : a.1 = k
      · have : ¬ a.1 = k' := fun e => h (ha.symm.trans e)
        simp [ha, h]
      · simp [ha]
    simp [h, h', List.find?_filter, hp]

/-- The stores after one `ProcessSensorData` call, by outcome of the writes. -/
theorem ingest_eq (st : Stores) (c : Ingestion) :
    ingest st c =
      match c.createFault, c.setFault with
      | some _, _ => st
      | none, some _ =>
        { st with history := st.history ++
            [{ ID := st.history.length + 1, DeviceID := c.deviceID, Value := c.value,
               Timestamp := c.observedAt, CreatedAt := c.now }] }
      | none, none =>
        { history := st.history ++
            [{ ID := st.history.length + 1, DeviceID := c.deviceID, Value := c.value,
               Timestamp := c.observedAt, CreatedAt := c.now }],
          latest := redisSet (getKey c.deviceID)
            { DeviceID := c.deviceID, Value := c.value, Timestamp := c.observedAt } st.latest } := by
  unfold ingest
  rcases hc : c.createFault with _ | msg
  · rw [processSensorData_of_create_ok (memService none c.setFault) c.now c.deviceID c.value
      c.observedAt st _ rfl]
    rcases hs : c.setFault with _ | msg2 <;> rfl
  · rw [processSensorData_of_create_error (memService (some msg) c.setFault) c.now c.deviceID
      c.value c.observedAt st st msg rfl]

/-- The latest-value cells after one `ProcessSensorData` call. -/
theorem ingest_latest (st : Stores) (c : Ingestion) :
    (ingest st c).latest =
      if c.createFault = none ∧ c.setFault = none then
        redisSet (getKey c.deviceID)
          { DeviceID := c.deviceID, Value := c.value, Timestamp := c.observedAt } st.latest
      else st.latest := by
  rw [ingest_eq]
  rcases c.createFault with _ | m1 <;> rcases c.setFault with _ | m2 <;> simp

/-- The history rows after one `ProcessSensorData` call. -/
theorem ingest_history (st : Stores) (c : Ingestion) :
    (ingest st c).history =
      if c.createFault = none then
        st.history ++
          [{ ID := st.history.length + 1, DeviceID := c.deviceID, Value := c.value,
             Timestamp := c.observedAt, CreatedAt := c.now }]
      else st.history := by
  rw [ingest_eq]
  rcases c.createFault with _ | m1 <;> rcases c.setFault with _ | m2 <;> simp

/-- C2 (counterexample): after a fully stored reading (value 1, observed at 10)
and a second reading of the same device (value 2, observed at 20) whose history
write fails, the persisted latest value is still the first reading while the
most recent reading passed to `ProcessSensorData` is the second. -/
theorem latest_not_most_recent_reading :
    (redisGet (getKey "sensor-1") (ingestAll staleRun).latest).map
        (fun lv => (lv.Value, lv.Timestamp)) = some (⟨1⟩, ⟨10⟩) ∧
      (lastReading "sensor-1" staleRun).map (fun c => (c.value, c.observedAt)) =
        some (⟨2⟩, ⟨20⟩) ∧
      (redisGet (getKey "sensor-1") (ingestAll staleRun).latest).map
        (fun lv => (lv.Value, lv.Timestamp)) ≠
        (lastReading "sensor-1" staleRun).map (fun c => (c.value, c.observedAt)) := by
  decide

/-- C2 (amended): from empty stores, after any sequence of `ProcessSensorData`
calls with any outcome of each write, the latest value persisted for a device
is exactly the (deviceID, value, observedAt) of the most recent reading of that
device whose `Create` and `SetLatest` both succeeded, and none is persisted when
there is no such reading. -/
theorem latest_is_last_stored_reading (cs : List Ingestion) (deviceID : String) :
    redisGet (getKey deviceID) (ingestAll cs).latest =
      (lastStored deviceID cs).map (fun c =>
        ({ DeviceID := c.deviceID, Value := c.value, Timestamp := c.observedAt } : LatestValue)) := by
  induction cs using List.reverseRecOn with
  | nil => rfl
  | append_singleton cs c ih =>
    have hfold : ingestAll (cs ++ [c]) = ingest (ingestAll cs) c := by
      simp [ingestAll, List.foldl_append]
    rw [hfold, ingest_latest]
    unfold lastStored at ih ⊢
    rw [List.filter_append]
    by_cases hok : c.createFault = none ∧ c.setFault = none
    · rw [if_pos hok, redisGet_redisSet]
      simp only [getKey_inj]
      by_cases hd : deviceID = c.deviceID
      · have hd' : c.deviceID = deviceID := hd.symm
        simp [hd', hok.1, hok.2]
      · have hd' : ¬ c.deviceID = deviceID := fun e => hd e.symm
        rw [if_neg hd, ih]
        simp [hd']
    · rw [if_neg hok, ih]
      have : ¬ (c.deviceID = deviceID ∧ c.createFault = none ∧ c.setFault = none) :=
        fun e => hok e.2
      simp [this]

/-- C8: with both stores succeeding, two `ProcessSensorData` calls with the
same (deviceID, value, observedAt) add exactly two history rows for the device,
leave exactly one latest-value cell for it, holding (deviceID, value,
observedAt), and leave the cells of all other devices as they were. -/
theorem duplicate_ingestion (st : Stores) (deviceID : String) (value : Float64)
    (observedAt now1 now2 : Time) :
    ((ingest (ingest st ⟨deviceID, value, observedAt, now1, none, none⟩)
        ⟨deviceID, value, observedAt, now2, none, none⟩).history.filter
          (fun r => r.DeviceID = deviceID)).length =
        (st.history.filter (fun r => r.DeviceID = deviceID)).length + 2 ∧
      (ingest (ingest st ⟨deviceID, value, observedAt, now1, none, none⟩)
        ⟨deviceID, value, observedAt, now2, none, none⟩).latest.filter
          (fun e => e.1 = getKey deviceID) =
        [(getKey deviceID, { DeviceID := deviceID, Value := value, Timestamp := observedAt })] ∧
      (ingest (ingest st ⟨deviceID, value, observedAt, now1, none, none⟩)
        ⟨deviceID, value, observedAt, now2, none, none⟩).latest.filter
          (fun e => e.1 ≠ getKey deviceID) =
        st.latest.filter (fun e => e.1 ≠ getKey deviceID) ∧
      (∀ other : String,
        redisGet (getKey other)
          (ingest (ingest st ⟨deviceID, value, observedAt, now1, none, none⟩)
            ⟨deviceID, value, observedAt, now2, none, none⟩).latest =
          if other = deviceID then
            some { DeviceID := deviceID, Value := value, Timestamp := observedAt }
          else redisGet (getKey other) st.latest) := by
  refine ⟨?_, ?_, ?_, ?_⟩
  · simp [ingest_history, List.filter_append]
  · simp [ingest_latest, redisSet, List.filter_cons, List.filter_filter]
  · simp [ingest_latest, redisSet, List.filter_cons, List.filter_filter]
  · intro other
    simp only [ingest_latest, and_self, if_true, redisGet_redisSet, getKey_inj]
    split_ifs <;> rfl

/-! ### The query surface -/

/-- The limit that reaches the store for a limit given to the service. -/
theorem clamp_limit (limit : Int) :
    (if (if limit ≤ 0 then (100 : Int) else limit) > 1000 then (1000 : Int)
      else (if limit ≤ 0 then 100 else limit)) =
      (if limit ≤ 0 then 100 else if limit > 1000 then 1000 else limit) := by
  split_ifs <;> omega

/-- The service's `GetHistory` over logging stores, in one equation. -/
theorem traced_getHistory_eq {σ : Type} (s : SensorDataService σ)
    (deviceID : String) (limit offset : Int) (st : σ) (log : List StoreCall) :
    (traceService s).GetHistory deviceID limit offset (st, log) =
      ((s.sensorRepo.GetHistory deviceID
          (if limit ≤ 0 then 100 else if limit > 1000 then 1000 else limit) offset st).1.mapError
          (fun err => "failed to get history: " ++ err),
        ((s.sensorRepo.GetHistory deviceID
          (if limit ≤ 0 then 100 else if limit > 1000 then 1000 else limit) offset st).2,
         log ++ [StoreCall.GetHistory deviceID
          (if limit ≤ 0 then 100 else if limit > 1000 then 1000 else limit) offset])) := by
  simp only [SensorDataService.GetHistory, clamp_limit, traceService, traceSensorRepo]
  split <;> rename_i h <;> simp only [Prod.mk.injEq] at h <;>
    simp [h.1, ← h.2, Except.mapError]

/-- The service's `GetHistoryCount` over logging stores appends one `Count`. -/
theorem traced_getHistoryCount_log {σ : Type} (s : SensorDataService σ)
    (deviceID : String) (st : σ) (log : List StoreCall) :
    ((traceService s).GetHistoryCount deviceID (st, log)).2.2 =
      log ++ [StoreCall.Count deviceID] := by
  simp only [SensorDataService.GetHistoryCount, traceService, traceSensorRepo]
  split <;> rename_i h <;> simp only [Prod.mk.injEq] at h <;> simp [← h.2]

/-- The store calls of one `Handler.GetHistory` request with a device
identifier: one `GetHistory` with the handler's limit clamped by the service
and the handler's offset, then one `Count` when the history read succeeded. -/
theorem handler_getHistory_log {σ : Type} (s : SensorDataService σ) (req : HistoryRequest)
    (st : σ) (log : List StoreCall) (hid : req.id ≠ "") :
    ∃ rest, ((Handler.GetHistory ⟨traceService s⟩ req (st, log)).2.2 =
      log ++ StoreCall.GetHistory req.id
        (if (if (Atoi req.limit).1 ≤ 0 then 100 else (Atoi req.limit).1) > 1000 then 1000
          else (if (Atoi req.limit).1 ≤ 0 then 100 else (Atoi req.limit).1))
        (if (Atoi req.offset).1 < 0 then 0 else (Atoi req.offset).1) :: rest) := by
  simp only [Handler.GetHistory, if_neg hid]
  rw [traced_getHistory_eq]
  have hpos : ¬ (if (Atoi req.limit).1 ≤ 0 then (100 : Int) else (Atoi req.limit).1) ≤ 0 := by
    split_ifs <;> omega
  simp only [if_neg hpos]
  rcases (s.sensorRepo.GetHistory req.id _ _ st) with ⟨r, st1⟩
  cases r with
  | error e => exact ⟨[], by simp [Except.mapError]⟩
  | ok records =>
    refine ⟨[StoreCall.Count req.id], ?_⟩
    simp only [Except.mapError]
    have hc := traced_getHistoryCount_log s req.id st1
      (log ++ [StoreCall.GetHistory req.id
        (if (if (Atoi req.limit).1 ≤ 0 then 100 else (Atoi req.limit).1) > 1000 then 1000
          else (if (Atoi req.limit).1 ≤ 0 then 100 else (Atoi req.limit).1))
        (if (Atoi req.offset).1 < 0 then 0 else (Atoi req.offset).1)])
    split <;> rename_i h <;> simp [h] at hc <;> simp [hc]

/-- A syntax error of `ParseUint` comes with the value 0. -/
theorem parseUintLoop_syntax (cs : List Char) (n : Nat)
    (h : (parseUintLoop cs n).2 = some NumError.ErrSyntax) : (parseUintLoop cs n).1 = 0 := by
  induction cs generalizing n with
  | nil => simp [parseUintLoop] at h
  | cons c cs ih =>
    simp only [parseUintLoop] at h ⊢
    split_ifs at h ⊢
    · simp at h
    · simp at h
    · exact ih _ h
    · rfl

/-- A syntax error of `Atoi` comes with the value 0. -/
theorem atoi_syntax_value (text : String) (h : (Atoi text).2 = some NumError.ErrSyntax) :
    (Atoi text).1 = 0 := by
  unfold Atoi ParseInt at h ⊢
  split
  · rfl
  · rename_i c cs hs
    simp only [hs] at h
    split
    · rfl
    · rename_i un e hne hp
      simp only [hp] at h
      split_ifs at h with h1 h2 <;> simp at h

/-- A range error of `Atoi` comes with one of the two bounds of `int64`. -/
theorem atoi_range_value (text : String) (h : (Atoi text).2 = some NumError.ErrRange) :
    (Atoi text).1 = 2 ^ 63 - 1 ∨ (Atoi text).1 = -(2 ^ 63) := by
  unfold Atoi ParseInt at h ⊢
  split
  · rename_i hs
    simp [hs] at h
  · rename_i c cs hs
    simp only [hs] at h
    split
    · rename_i hp
      simp [hp] at h
    · rename_i un e hne hp
      simp only [hp] at h
      split_ifs at h ⊢ with h1 h2
      · exact Or.inl rfl
      · exact Or.inr rfl

/-- C4: evaluation of `Handler.GetLatestValue` at a read that fails because
the store is unreachable, and at a read of an absent key: both are answered
with status 404, the former is not answered with 500. -/
theorem getLatestValue_store_failure_status :
    ((memHandler none (some "connection refused")).GetLatestValue "sensor-1"
        (Stores.empty, [])).1.status = 404 ∧
      ((memHandler none none).GetLatestValue "sensor-1" (Stores.empty, [])).1.status = 404 ∧
      ((memHandler none (some "connection refused")).GetLatestValue "sensor-1"
        (Stores.empty, [])).1.status ≠ 500 := by
  decide

/-- C5: evaluation of `Handler.GetHistory` at `limit=5000`: the response body
reports limit 5000 while the store call was made with limit 1000. -/
theorem getHistory_reported_limit_5000 :
    (memHandler none none).GetHistory ⟨"sensor-1", "5000", ""⟩ (Stores.empty, []) =
      (⟨200, .History [] 0 5000 0⟩, Stores.empty,
        [StoreCall.GetHistory "sensor-1" 1000 0, StoreCall.Count "sensor-1"]) := by
  decide

/-- C10 (counterexample): an offset text beyond the `int64` range is reported
by `Atoi` as an error, yet the offset that reaches the store is the largest
`int64`, not 0; and a limit text beyond the range reaches the store as 1000
while the limit text `0` reaches it as 100. -/
theorem getHistory_out_of_range_text_not_zero :
    Atoi "9223372036854775808" = (9223372036854775807, some NumError.ErrRange) ∧
      ((memHandler none none).GetHistory ⟨"sensor-1", "", "9223372036854775808"⟩
        (Stores.empty, [])).2.2 =
        [StoreCall.GetHistory "sensor-1" 100 9223372036854775807, StoreCall.Count "sensor-1"] ∧
      ((memHandler none none).GetHistory ⟨"sensor-1", "9223372036854775808", ""⟩
        (Stores.empty, [])).2.2 =
        [StoreCall.GetHistory "sensor-1" 1000 0, StoreCall.Count "sensor-1"] ∧
      ((memHandler none none).GetHistory ⟨"sensor-1", "0", ""⟩ (Stores.empty, [])).2.2 =
        [StoreCall.GetHistory "sensor-1" 100 0, StoreCall.Count "sensor-1"] := by
  decide

/-- C10 (amended): for a request with a non-empty deviceID the handler uses the
value `Atoi` returns and ignores its error.  The offset that reaches the store
is 0 when `Atoi` reports a syntax error for the offset text or returns a
negative value (a negative integer, or a text below the `int64` range), the
parsed integer when the text parses to a non-negative integer, and
9223372036854775807 when `Atoi` reports a range error above the range.  A limit
text that does not parse is handled exactly like `limit=0` on a syntax error or
a range error below the range, and exactly like `limit=9223372036854775807` on
a range error above the range. -/
theorem getHistory_query_parsing {σ : Type} (s : SensorDataService σ) (req : HistoryRequest)
    (st : σ) (log : List StoreCall) (hid : req.id ≠ "") :
    (∃ lim rest, (Handler.GetHistory ⟨traceService s⟩ req (st, log)).2.2 =
        log ++ StoreCall.GetHistory req.id lim
          (if (Atoi req.offset).2 = some NumError.ErrSyntax ∨ (Atoi req.offset).1 < 0 then 0
            else if (Atoi req.offset).2 = none then (Atoi req.offset).1
            else 9223372036854775807) :: rest) ∧
      ((Atoi req.limit).2 = none ∨
        Handler.GetHistory ⟨traceService s⟩ req (st, log) =
          Handler.GetHistory ⟨traceService s⟩
            { req with limit :=
                if (Atoi req.limit).2 = some NumError.ErrRange ∧ 0 < (Atoi req.limit).1
                  then "9223372036854775807" else "0" } (st, log)) := by
  constructor
  · obtain ⟨rest, hrest⟩ := handler_getHistory_log s req st log hid
    refine ⟨(if (if (Atoi req.limit).1 ≤ 0 then 100 else (Atoi req.limit).1) > 1000 then 1000
      else (if (Atoi req.limit).1 ≤ 0 then 100 else (Atoi req.limit).1)), rest, ?_⟩
    rw [hrest]
    have ho : (if (Atoi req.offset).1 < 0 then 0 else (Atoi req.offset).1) =
        (if (Atoi req.offset).2 = some NumError.ErrSyntax ∨ (Atoi req.offset).1 < 0 then 0
          else if (Atoi req.offset).2 = none then (Atoi req.offset).1
          else 9223372036854775807) := by
      rcases he : (Atoi req.offset).2 with _ | e
      · simp
      · cases e with
        | ErrSyntax => simp [atoi_syntax_value req.offset he]
        | ErrRange =>
          rcases atoi_range_value req.offset he with hv | hv <;> simp [hv]
    rw [ho]
  · rcases he : (Atoi req.limit).2 with _ | e
    · exact Or.inl rfl
    · right
      cases e with
      | ErrSyntax =>
        have h0 : (Atoi req.limit).1 = 0 := atoi_syntax_value req.limit he
        have h1 : (Atoi "0").1 = 0 := by decide
        simp [Handler.GetHistory, h0, h1]
      | ErrRange =>
        rcases atoi_range_value req.limit he with hv | hv
        · have h1 : (Atoi "9223372036854775807").1 = 2 ^ 63 - 1 := by decide
          simp [Handler.GetHistory, hv, h1]
        · have h1 : (Atoi "0").1 = 0 := by decide
          simp [Handler.GetHistory, hv, h1]

/-- C10 (witness): the request `limit=99999999999999999999x&offset=-5` for
device `sensor-1`: the limit text is a range error above the range, the offset
text parses to a negative number. -/
theorem getHistory_query_parsing_witness :
    rangeRequest.id ≠ "" ∧
      Atoi rangeRequest.limit = (9223372036854775807, some NumError.ErrRange) ∧
      Atoi rangeRequest.offset = (-5, none) ∧
      ((∃ lim rest, (Handler.GetHistory ⟨traceService (memService none none)⟩
          rangeRequest (Stores.empty, [])).2.2 =
        [] ++ StoreCall.GetHistory rangeRequest.id lim
          (if (Atoi rangeRequest.offset).2 = some NumError.ErrSyntax ∨
              (Atoi rangeRequest.offset).1 < 0 then 0
            else if (Atoi rangeRequest.offset).2 = none then (Atoi rangeRequest.offset).1
            else 9223372036854775807) :: rest) ∧
      ((Atoi rangeRequest.limit).2 = none ∨
        Handler.GetHistory ⟨traceService (memService none none)⟩ rangeRequest
            (Stores.empty, []) =
          Handler.GetHistory ⟨traceService (memService none none)⟩
            { rangeRequest with limit :=
                if (Atoi rangeRequest.limit).2 = some NumError.ErrRange ∧
                    0 < (Atoi rangeRequest.limit).1
                  then "9223372036854775807" else "0" } (Stores.empty, []))) :=
  ⟨by decide, by decide, by decide,
    getHistory_query_parsing (memService none none) rangeRequest Stores.empty [] (by decide)⟩

/-! ### The message consumer -/

/-- One message through the logging client: the log grows by the decoded
reading, if there is one. -/
theorem traced_messageHandler_log {σ : Type} (lib : Lib) (c : Client σ) (msg : Message)
    (st : σ) (log : List Invocation) :
    ((traceClient c).messageHandler lib msg (st, log)).2 =
      log ++ (specDecode lib msg).toList := by
  unfold Client.messageHandler specDecode
  rcases lib.jsonUnmarshal msg.payload with e | payload
  · simp
  · by_cases hid : payload.Device.ID = ""
    · simp [hid]
    · simp only [hid, if_false]
      rcases lib.timeParse payload.Data.Timestamp with e | t
      · simp only [traceClient, traceHandler]
        split <;> rename_i h <;> simp only [Prod.mk.injEq] at h <;> simp [← h.2]
      · simp only [traceClient, traceHandler]
        split <;> rename_i h <;> simp only [Prod.mk.injEq] at h <;> simp [← h.2]

/-- A sequence of messages through the logging client. -/
theorem traced_deliver_log {σ : Type} (lib : Lib) (c : Client σ) (msgs : List Message)
    (st : σ) (log : List Invocation) :
    ((traceClient c).deliver lib msgs (st, log)).2 = log ++ msgs.filterMap (specDecode lib) := by
  induction msgs generalizing st log with
  | nil => simp [Client.deliver]
  | cons m ms ih =>
    have hstep : (traceClient c).deliver lib (m :: ms) (st, log) =
        (traceClient c).deliver lib ms
          (((traceClient c).messageHandler lib m (st, log)).1,
            ((traceClient c).messageHandler lib m (st, log)).2) := by
      simp [Client.deliver]
    rw [hstep, ih, traced_messageHandler_log]
    cases hd : specDecode lib m <;> simp [List.filterMap_cons, hd]

/-- The specification's decoder succeeds exactly on the accepted messages. -/
theorem specDecode_isSome (lib : Lib) (msg : Message) :
    (specDecode lib msg).isSome = accepted lib msg := by
  unfold specDecode accepted
  rcases lib.jsonUnmarshal msg.payload with e | payload
  · rfl
  · by_cases hid : payload.Device.ID = ""
    · simp [hid]
    · simp only [hid, if_false]
      rcases lib.timeParse payload.Data.Timestamp with e | t <;> simp [hid]

/-- Counting the successes of the decoder. -/
theorem length_filterMap_specDecode (lib : Lib) (msgs : List Message) :
    (msgs.filterMap (specDecode lib)).length = msgs.countP (accepted lib) := by
  induction msgs with
  | nil => rfl
  | cons m ms ih =>
    have hm := specDecode_isSome lib m
    cases hd : specDecode lib m with
    | none =>
      rw [hd] at hm
      have ha : accepted lib m = false := by simpa using hm.symm
      simp [List.filterMap_cons, hd, List.countP_cons, ha, ih]
    | some r =>
      rw [hd] at hm
      have ha : accepted lib m = true := by simpa using hm.symm
      simp [List.filterMap_cons, hd, List.countP_cons, ha, ih]

/-- C6: for every sequence of inbound messages and every registered handler
(whatever it returns), the handler invocations are, in arrival order, one per
message whose payload parses with a non-empty device identifier, and none for
the other messages; the number of invocations is the number of such messages. -/
theorem deliver_invokes_once_per_accepted {σ : Type} (lib : Lib) (c : Client σ)
    (msgs : List Message) (st : σ) :
    ((traceClient c).deliver lib msgs (st, [])).2 = msgs.filterMap (specDecode lib) ∧
      ((traceClient c).deliver lib msgs (st, [])).2.length = msgs.countP (accepted lib) ∧
      (∀ msg, (specDecode lib msg).isSome = accepted lib msg) := by
  refine ⟨?_, ?_, specDecode_isSome lib⟩
  · simp [traced_deliver_log]
  · simp [traced_deliver_log, length_filterMap_specDecode]

/-- C7: when the payload parses to a structure with a non-empty device
identifier `d`, a value `v` and a timestamp text that parses to `t`, the handler
is invoked once, with exactly `(d, v, t)`, whatever the current time is. -/
theorem messageHandler_passes_decoded {σ : Type} (lib : Lib) (c : Client σ) (msg : Message)
    (st : σ) (log : List Invocation) (payload : Payload) (t : Time)
    (hparse : lib.jsonUnmarshal msg.payload = .ok payload)
    (hid : payload.Device.ID ≠ "")
    (htime : lib.timeParse payload.Data.Timestamp = .ok t) :
    ((traceClient c).messageHandler lib msg (st, log)).2 =
      log ++ [(payload.Device.ID, payload.Data.Value, t)] := by
  rw [traced_messageHandler_log]
  simp [specDecode, hparse, hid, htime]

/-- C7 (witness): a payload for device `" Sensor-1 "` (blanks and capital kept)
with timestamp 2024-01-01T00:00:00Z, handled at another time by a handler that
fails. -/
theorem messageHandler_passes_decoded_witness :
    demoLib.jsonUnmarshal " Sensor-1 " =
        .ok ⟨⟨" Sensor-1 "⟩, ⟨⟨0x4035800000000000⟩, "2024-01-01T00:00:00Z"⟩⟩ ∧
      " Sensor-1 " ≠ "" ∧
      demoLib.timeParse "2024-01-01T00:00:00Z" = .ok ⟨1704067200000000000⟩ ∧
      ((traceClient (⟨"sensors/#", 1, fun _ _ _ s => (some "store down", s)⟩ : Client Unit)).messageHandler
          demoLib ⟨"sensors/a", " Sensor-1 ", ⟨5⟩⟩ ((), [])).2 =
        [] ++ [(" Sensor-1 ", ⟨0x4035800000000000⟩, ⟨1704067200000000000⟩)] :=
  ⟨rfl, by decide, rfl,
    messageHandler_passes_decoded demoLib _ ⟨"sensors/a", " Sensor-1 ", ⟨5⟩⟩ () []
      ⟨⟨" Sensor-1 "⟩, ⟨⟨0x4035800000000000⟩, "2024-01-01T00:00:00Z"⟩⟩ ⟨1704067200000000000⟩
      rfl (by decide) rfl⟩

end GoMqttApi
